import Mathlib

/-!
Shallow embedding of the agent response-classification and orchestration core
of this repository (`parser.py` and `agent.py`).

Strings are modelled as Lean `String`s; every operation is defined over the
underlying character list, mirroring the Python code character by character.
Python's Unicode character classes (`\s`, `\d`, `\w`, `str.strip`,
`str.lower`) are modelled by their ASCII counterparts (`Char.isWhitespace`,
`Char.isDigit`, `Char.isAlphanum`/underscore, …), which agree with Python on
all ASCII inputs.

The chat-completion collaborator is modelled as the ordered list of reply
strings it returns, one per API call, and the unbounded `while True` subtask
loop is given explicit fuel: `none` models a run that did not complete
(collaborator failure or loop budget exhausted), `some` a completed run.
-/

/-- Python `str.startswith` on character lists (`isPre p l` means the list
`p` is an initial segment of `l`). -/
def isPre : List Char → List Char → Bool
  | [], _ => true
  | _ :: _, [] => false
  | p :: ps, c :: cs => p == c && isPre ps cs

/-- Python `str.lstrip()`: drop leading whitespace. -/
def lstripL (l : List Char) : List Char := l.dropWhile Char.isWhitespace

/-- Python `str.rstrip()`: drop trailing whitespace. -/
def rstripL (l : List Char) : List Char :=
  (l.reverse.dropWhile Char.isWhitespace).reverse

/-- Python `str.strip()`: drop whitespace from both ends. -/
def stripL (l : List Char) : List Char := rstripL (lstripL l)

/-- Python `str.strip()` packaged on `String`. -/
def pystrip (s : String) : String := ⟨stripL s.data⟩

/-- Python `s.startswith(p)` packaged on `String`. -/
def startswith (s p : String) : Bool := isPre p.data s.data

/-- The response kinds of `parser.ResponseType`. -/
inductive ResponseType where
  | Plan
  | PlanItem
  | Thought
  | Action
  | Observation
  | Answer
  deriving DecidableEq, Repr

/-- The `metadata` dictionary `{"name": …, "params": …}` attached to a
matched `Action` response in `parse_agent_response`. -/
structure ActionMetadata where
  name : String
  params : String
  deriving DecidableEq, Repr

/-- `parser.AgentResponse`: a parsed agent response (`metadata is None`
modelled as `none`). -/
structure AgentResponse where
  type : ResponseType
  content : String
  metadata : Option ActionMetadata := none
  deriving DecidableEq, Repr

/-- A word character of the regex class `\w` (ASCII): letters, digits or
underscore. -/
def isWordChar (c : Char) : Bool := c.isAlphanum || c == '_'

/-- The match of Python's `re.match(r'(\w+)\((.*)\)', l)`, returning the two
capture groups.  `\w+` greedily takes the maximal leading run of word
characters (backtracking cannot help, since the following literal `(` is not
a word character); `.*` cannot cross a newline, and being greedy it extends
to the last `)` that occurs before any newline; the match is unanchored at
the right, so trailing characters are ignored. -/
def matchAction (l : List Char) : Option (List Char × List Char) :=
  let name := l.takeWhile isWordChar
  if name.isEmpty then none
  else
    match l.dropWhile isWordChar with
    | '(' :: t =>
      match (t.takeWhile (fun c => c != '\n')).reverse.dropWhile (fun c => c != ')') with
      | ')' :: r => some (name, r.reverse)
      | _ => none
    | _ => none

/-- A character of the set passed to Python's `.strip('"\'')`. -/
def isQuote (c : Char) : Bool := c == '"' || c == '\''

/-- Python `str.strip('"\'')`: remove all leading and trailing single- or
double-quote characters. -/
def stripQuotesL (l : List Char) : List Char :=
  ((l.dropWhile isQuote).reverse.dropWhile isQuote).reverse

/-- The prefix cascade of `parse_agent_response` run on the already stripped
text (`parser.py`, lines 59–94).  Each branch slices off the prefix
(`text[5:]`, `text[9:]`, …) and strips the remainder. -/
def parseStripped (t : List Char) : AgentResponse :=
  if isPre "Plan:".data t then ⟨.Plan, ⟨stripL (t.drop 5)⟩, none⟩
  else if isPre "PlanItem:".data t then ⟨.PlanItem, ⟨stripL (t.drop 9)⟩, none⟩
  else if isPre "Thought:".data t then ⟨.Thought, ⟨stripL (t.drop 8)⟩, none⟩
  else if isPre "Action:".data t then
    let ac := stripL (t.drop 7)
    match matchAction ac with
    | some (n, a) => ⟨.Action, ⟨ac⟩, some ⟨⟨n⟩, ⟨stripQuotesL a⟩⟩⟩
    | none => ⟨.Action, ⟨ac⟩, none⟩
  else if isPre "Observation:".data t then ⟨.Observation, ⟨stripL (t.drop 12)⟩, none⟩
  else if isPre "Final Answer:".data t then ⟨.Answer, ⟨stripL (t.drop 13)⟩, none⟩
  else if isPre "Answer:".data t then ⟨.Answer, ⟨stripL (t.drop 7)⟩, none⟩
  else ⟨.Thought, ⟨t⟩, none⟩

/-- `parser.parse_agent_response`: strip the input, then classify by prefix
cascade. -/
def parse_agent_response (text : String) : AgentResponse :=
  parseStripped (stripL text.data)

/-- Python `text.split('\n')` on character lists. -/
def splitNl : List Char → List (List Char)
  | [] => [[]]
  | c :: t =>
    if c = '\n' then [] :: splitNl t
    else
      match splitNl t with
      | h :: r => (c :: h) :: r
      | [] => [[c]]

/-- Group 1 of Python's `re.match(r'^\s*\d+\.\s*(.+)$', line)` (for a `line`
containing no newline).  `\s*` greedily takes the maximal whitespace run
(backtracking cannot help: a digit is not whitespace), `\d+` the maximal
digit run (a given-back digit is never `.`), then the literal `.`; after it,
greedy `\s*` takes the maximal whitespace run and `(.+)` the nonempty rest —
except when the rest is nonempty pure whitespace, where `\s*` backtracks by
one character and group 1 is that final whitespace character. -/
def planRegexGroup1 (l : List Char) : Option (List Char) :=
  let s1 := l.dropWhile Char.isWhitespace
  if (s1.takeWhile Char.isDigit).isEmpty then none
  else
    match s1.dropWhile Char.isDigit with
    | [] => none
    | c :: rest =>
      if c = '.' then
        match rest.dropWhile Char.isWhitespace with
        | [] => rest.getLast?.map (fun x => [x])
        | p :: ps => some (p :: ps)
      else none

/-- `parser.parse_plan`: split into lines, keep `match.group(1).strip()` of
every line matching the numbered-item regex. -/
def parse_plan (text : String) : List String :=
  (splitNl text.data).filterMap
    (fun line => (planRegexGroup1 line).map (fun g => (⟨stripL g⟩ : String)))

/-- One chat message `{"role": …, "content": …}`. -/
structure Message where
  role : String
  content : String
  deriving DecidableEq, Repr

/-- The system prompt of the plan-generation call in `run_agent`. -/
def plan_system_text : String :=
  "You are a helpful assistant that breaks down tasks into numbered steps."

/-- The system prompt of each subtask conversation in `run_agent`. -/
def subtask_system_text : String :=
  "You are an agent that thinks step by step.\nWhen given a subtask:\n1. First respond with \"Thought:\" followed by your reasoning\n2. Then either:\n   - \"Action: Search('query')\" to search for information\n   - \"Final Answer: your answer\" when you have enough information"

/-- Python `str.lower()` (ASCII). -/
def pylower (s : String) : String := ⟨s.data.map Char.toLower⟩

/-- Python's `pat in s` substring test on character lists. -/
def containsSub (pat : List Char) : List Char → Bool
  | [] => isPre pat []
  | c :: t => isPre pat (c :: t) || containsSub pat t

/-- Python `pat in s` packaged on `String`. -/
def pyin (pat s : String) : Bool := containsSub pat.data s.data

/-- `agent._execute_action`: the stub action executor simulating search
results. -/
def _execute_action (action : AgentResponse) : String :=
  match action.metadata with
  | some md =>
    if md.name = "Search" then
      let query := md.params
      let q := pylower query
      if pyin "bitcoin ticker" q then "BTC"
      else if pyin "price of btc" q || pyin "bitcoin price" q then "It's $54,000"
      else if pyin "weather" q then "It's 72°F and sunny"
      else "Search results for '" ++ query ++ "': Various relevant information found."
    else "Action executed successfully."
  | none => "Action executed successfully."

/-- `agent.AgentResult` (`final_answer = None` modelled as `none`). -/
structure AgentResult where
  plan_items : List String
  log : List AgentResponse
  final_answer : Option String := none
  deriving DecidableEq, Repr

/-- The `while True` subtask loop of `run_agent` (`agent.py`, lines
102–167).  `replies` is the stream of model replies still to come: the first
one answers the generate-thought call, the next the continuation call, and
so on.  `fuel` bounds the number of loop iterations; `none` models a run
that did not complete (the source loop is unbounded). -/
def subtaskLoop : Nat → List Message → List AgentResponse → List String →
    Option (List AgentResponse × List String)
  | 0, _, _, _ => none
  | Nat.succ fuel, messages, log, replies =>
    match replies with
    | [] => none
    | response_text :: rest =>
      let parsed := parse_agent_response ("Thought: " ++ response_text)
      let log1 := log ++ [parsed]
      let messages1 := messages ++ [⟨"assistant", response_text⟩, ⟨"user", "Continue:"⟩]
      match rest with
      | [] => none
      | continue_text :: rest2 =>
        let continue_parsed := parse_agent_response continue_text
        if continue_parsed.type = ResponseType.Action then
          let log2 := log1 ++ [continue_parsed]
          let observation := _execute_action continue_parsed
          let log3 := log2 ++ [⟨ResponseType.Observation, observation, none⟩]
          let messages2 := messages1 ++
            [⟨"assistant", continue_text⟩,
             ⟨"user", "Observation: " ++ observation ++ "\nContinue:"⟩]
          subtaskLoop fuel messages2 log3 rest2
        else if continue_parsed.type = ResponseType.Answer then
          some (log1 ++ [continue_parsed], rest2)
        else
          subtaskLoop fuel (messages1 ++ [⟨"assistant", continue_text⟩])
            (log1 ++ [continue_parsed]) rest2

/-- The `for i, item in enumerate(plan_items, 1)` loop of `run_agent`
(`agent.py`, lines 80–167): append a `PlanItem` event, build the fresh
subtask transcript, then run the subtask loop. -/
def execItems (fuel : Nat) : List String → List AgentResponse → List String →
    Option (List AgentResponse × List String)
  | [], log, replies => some (log, replies)
  | item :: items, log, replies =>
    let log1 := log ++ [⟨ResponseType.PlanItem, item, none⟩]
    let messages : List Message :=
      [⟨"system", subtask_system_text⟩, ⟨"user", "Subtask: " ++ item ++ "\nThought:"⟩]
    match subtaskLoop fuel messages log1 replies with
    | none => none
    | some (log2, replies2) => execItems fuel items log2 replies2

/-- `agent.run_agent`.  The model collaborator is the list `replies`,
consumed one string per chat-completion call (the first reply answers the
plan call).  Mirrors the source: parse the plan, execute each plan item,
then scan the log backwards for the last `Answer` event. -/
def run_agent (fuel : Nat) (replies : List String) (prompt : String) : Option AgentResult :=
  match replies with
  | [] => none
  | plan_text :: rest =>
    let _plan_messages : List Message :=
      [⟨"system", plan_system_text⟩,
       ⟨"user", "Task: " ++ prompt ++ "\nGenerate a Plan: list each subtask as a numbered checklist."⟩]
    let plan_items := parse_plan plan_text
    match execItems fuel plan_items [] rest with
    | none => none
    | some (log, _) =>
      let final_answer :=
        (log.reverse.find? (fun e => decide (e.type = ResponseType.Answer))).map
          (fun e => e.content)
      some ⟨plan_items, log, final_answer⟩

/-! ### Whitespace and character-class facts -/

/-- Every character of the list is whitespace. -/
def wsOnly (l : List Char) : Prop := ∀ c ∈ l, c.isWhitespace = true

instance decidableWsOnly (l : List Char) : Decidable (wsOnly l) :=
  inferInstanceAs (Decidable (∀ c ∈ l, c.isWhitespace = true))

lemma wsOnly_nil : wsOnly [] := by intro c h; cases h

lemma ws_char_cases {c : Char} (h : c.isWhitespace = true) :
    c = ' ' ∨ c = '\t' ∨ c = '\r' ∨ c = '\n' := by
  have h' := h
  simp only [Char.isWhitespace, Bool.or_eq_true, decide_eq_true_eq] at h'
  tauto

lemma isWordChar_not_ws {c : Char} (h : isWordChar c = true) : c.isWhitespace = false := by
  cases hw : c.isWhitespace with
  | false => rfl
  | true =>
    exfalso
    rcases ws_char_cases hw with rfl | rfl | rfl | rfl <;> exact absurd h (by decide)

lemma isDigit_not_ws {c : Char} (h : c.isDigit = true) : c.isWhitespace = false := by
  cases hw : c.isWhitespace with
  | false => rfl
  | true =>
    exfalso
    rcases ws_char_cases hw with rfl | rfl | rfl | rfl <;> exact absurd h (by decide)

/-! ### `dropWhile` facts -/

lemma dropWhile_ws_of_wsOnly {w : List Char} (h : wsOnly w) :
    w.dropWhile Char.isWhitespace = [] :=
  List.dropWhile_eq_nil_iff.mpr h

lemma dropWhile_ws_append_wsOnly {w : List Char} (l : List Char) (h : wsOnly w) :
    (w ++ l).dropWhile Char.isWhitespace = l.dropWhile Char.isWhitespace := by
  rw [List.dropWhile_append, dropWhile_ws_of_wsOnly h]
  simp

lemma dropWhile_cons_neg {p : Char → Bool} {c : Char} (l : List Char) (h : p c = false) :
    (c :: l).dropWhile p = c :: l := by
  simp [List.dropWhile_cons, h]

lemma dropWhile_idem (p : Char → Bool) (l : List Char) :
    (l.dropWhile p).dropWhile p = l.dropWhile p := by
  induction l with
  | nil => rfl
  | cons c t ih =>
    by_cases h : p c = true
    · simp [List.dropWhile_cons, h, ih]
    · simp [List.dropWhile_cons, h]

/-! ### `rstripL` and `stripL` facts -/

lemma rstripL_eq_nil_of_wsOnly {w : List Char} (h : wsOnly w) : rstripL w = [] := by
  unfold rstripL
  rw [dropWhile_ws_of_wsOnly (by intro c hc; exact h c (List.mem_reverse.mp hc))]
  rfl

lemma rstripL_append_cons {c : Char} (l m : List Char) (hc : c.isWhitespace = false) :
    rstripL (l ++ c :: m) = l ++ c :: rstripL m := by
  unfold rstripL
  have h1 : l ++ c :: m = (l ++ [c]) ++ m := by simp
  rw [h1, List.reverse_append, List.reverse_append, List.dropWhile_append]
  split
  · next hemp =>
    rw [List.isEmpty_iff.mp hemp]
    simp [dropWhile_cons_neg _ hc]
  · next hemp =>
    simp

lemma rstripL_append_wsOnly {w : List Char} (l : List Char) (h : wsOnly w) :
    rstripL (l ++ w) = rstripL l := by
  unfold rstripL
  rw [List.reverse_append,
    dropWhile_ws_append_wsOnly _ (by intro c hc; exact h c (List.mem_reverse.mp hc))]

lemma stripL_cons_ws {c : Char} (l : List Char) (h : c.isWhitespace = true) :
    stripL (c :: l) = stripL l := by
  unfold stripL lstripL
  rw [List.dropWhile_cons]
  simp [h]

lemma stripL_cons_append {d c : Char} (m r : List Char)
    (hd : d.isWhitespace = false) (hc : c.isWhitespace = false) :
    stripL (d :: (m ++ c :: r)) = d :: m ++ c :: rstripL r := by
  unfold stripL lstripL
  rw [dropWhile_cons_neg _ hd]
  have h1 : d :: (m ++ c :: r) = (d :: m) ++ c :: r := by simp
  rw [h1, rstripL_append_cons _ _ hc]

lemma stripL_wsOnly_append {w1 w2 : List Char} (l : List Char)
    (h1 : wsOnly w1) (h2 : wsOnly w2) :
    stripL (w1 ++ (l ++ w2)) = stripL l := by
  unfold stripL lstripL
  rw [dropWhile_ws_append_wsOnly _ h1, List.dropWhile_append]
  split
  · next hemp =>
    rw [List.isEmpty_iff.mp hemp, dropWhile_ws_of_wsOnly h2]
  · next hemp =>
    rw [rstripL_append_wsOnly _ h2]

lemma dropWhile_head_false {p : Char → Bool} {l t : List Char} {c : Char}
    (h : l.dropWhile p = c :: t) : p c = false := by
  induction l with
  | nil => simp at h
  | cons a l' ih =>
    rw [List.dropWhile_cons] at h
    split at h
    · exact ih h
    · next hp =>
      cases h
      simpa using hp

lemma rstripL_cons_rstripL (c : Char) (l : List Char) :
    rstripL (c :: rstripL l) = rstripL (c :: l) := by
  unfold rstripL
  rw [List.reverse_cons, List.reverse_cons, List.reverse_reverse,
    List.dropWhile_append, List.dropWhile_append, dropWhile_idem]

lemma stripL_rstripL (l : List Char) : stripL (rstripL l) = stripL l := by
  cases hb : l.dropWhile Char.isWhitespace with
  | nil =>
    have hwl : wsOnly l := List.dropWhile_eq_nil_iff.mp hb
    have h1 : rstripL l = [] := rstripL_eq_nil_of_wsOnly hwl
    rw [h1]
    unfold stripL lstripL
    rw [hb]
    rfl
  | cons c b' =>
    have hc : c.isWhitespace = false := dropWhile_head_false hb
    have hL : l = l.takeWhile Char.isWhitespace ++ (c :: b') := by
      rw [← hb, List.takeWhile_append_dropWhile]
    have hwa : wsOnly (l.takeWhile Char.isWhitespace) := by
      intro x hx; exact List.mem_takeWhile_imp hx
    have h2 : rstripL l = l.takeWhile Char.isWhitespace ++ c :: rstripL b' := by
      conv_lhs => rw [hL]
      rw [rstripL_append_cons _ _ hc]
    rw [h2]
    unfold stripL lstripL
    rw [dropWhile_ws_append_wsOnly _ hwa, dropWhile_cons_neg _ hc, hb,
      rstripL_cons_rstripL]

lemma stripL_idem (l : List Char) : stripL (stripL l) = stripL l := by
  have h1 : stripL (stripL l) = stripL (rstripL (lstripL l)) := rfl
  rw [h1, stripL_rstripL]
  show rstripL (lstripL (lstripL l)) = rstripL (lstripL l)
  unfold lstripL
  rw [dropWhile_idem]

/-! ### `isPre` facts -/

lemma isPre_append_self (p X : List Char) : isPre p (p ++ X) = true := by
  induction p with
  | nil => rfl
  | cons c p' ih => simp [isPre, ih]

/-! ### Stripping around a recognized prefix -/

lemma stripL_tag_append (d : Char) (m : List Char) (c : Char) (tag r : List Char)
    (htag : tag = d :: m ++ [c])
    (hd : d.isWhitespace = false) (hc : c.isWhitespace = false) :
    stripL (tag ++ r) = tag ++ rstripL r := by
  subst htag
  have h1 : (d :: m ++ [c]) ++ r = d :: (m ++ c :: r) := by simp
  rw [h1, stripL_cons_append _ _ hd hc]
  simp

lemma stripL_sandwich (d : Char) (m : List Char) (c : Char) (w1 tag r w2 : List Char)
    (htag : tag = d :: m ++ [c])
    (hd : d.isWhitespace = false) (hc : c.isWhitespace = false)
    (hw1 : wsOnly w1) (hw2 : wsOnly w2) :
    stripL (w1 ++ tag ++ r ++ w2) = tag ++ rstripL r := by
  have h1 : w1 ++ tag ++ r ++ w2 = w1 ++ ((tag ++ r) ++ w2) := by simp
  rw [h1, stripL_wsOnly_append _ hw1 hw2, stripL_tag_append d m c tag r htag hd hc]

/-! ### `parseStripped` on each recognized prefix -/

lemma parseStripped_planTag (X : List Char) :
    parseStripped ("Plan:".data ++ X) = ⟨.Plan, ⟨stripL X⟩, none⟩ := by
  have h : isPre "Plan:".data ("Plan:".data ++ X) = true := isPre_append_self _ _
  simp only [parseStripped, h, if_true]
  rfl

lemma parseStripped_planItemTag (X : List Char) :
    parseStripped ("PlanItem:".data ++ X) = ⟨.PlanItem, ⟨stripL X⟩, none⟩ := by
  have h1 : isPre "Plan:".data ("PlanItem:".data ++ X) = false := rfl
  have h2 : isPre "PlanItem:".data ("PlanItem:".data ++ X) = true := isPre_append_self _ _
  simp only [parseStripped, h1, h2, Bool.false_eq_true, if_false, if_true]
  rfl

lemma parseStripped_thoughtTag (X : List Char) :
    parseStripped ("Thought:".data ++ X) = ⟨.Thought, ⟨stripL X⟩, none⟩ := by
  have h1 : isPre "Plan:".data ("Thought:".data ++ X) = false := rfl
  have h2 : isPre "PlanItem:".data ("Thought:".data ++ X) = false := rfl
  have h3 : isPre "Thought:".data ("Thought:".data ++ X) = true := isPre_append_self _ _
  simp only [parseStripped, h1, h2, h3, Bool.false_eq_true, if_false, if_true]
  rfl

lemma parseStripped_actionTag (X : List Char) :
    parseStripped ("Action:".data ++ X) =
      (match matchAction (stripL X) with
       | some (n, a) => ⟨.Action, ⟨stripL X⟩, some ⟨⟨n⟩, ⟨stripQuotesL a⟩⟩⟩
       | none => ⟨.Action, ⟨stripL X⟩, none⟩) := by
  have h1 : isPre "Plan:".data ("Action:".data ++ X) = false := rfl
  have h2 : isPre "PlanItem:".data ("Action:".data ++ X) = false := rfl
  have h3 : isPre "Thought:".data ("Action:".data ++ X) = false := rfl
  have h4 : isPre "Action:".data ("Action:".data ++ X) = true := isPre_append_self _ _
  simp only [parseStripped, h1, h2, h3, h4, Bool.false_eq_true, if_false, if_true]
  rfl

lemma parseStripped_obsTag (X : List Char) :
    parseStripped ("Observation:".data ++ X) = ⟨.Observation, ⟨stripL X⟩, none⟩ := by
  have h1 : isPre "Plan:".data ("Observation:".data ++ X) = false := rfl
  have h2 : isPre "PlanItem:".data ("Observation:".data ++ X) = false := rfl
  have h3 : isPre "Thought:".data ("Observation:".data ++ X) = false := rfl
  have h4 : isPre "Action:".data ("Observation:".data ++ X) = false := rfl
  have h5 : isPre "Observation:".data ("Observation:".data ++ X) = true := isPre_append_self _ _
  simp only [parseStripped, h1, h2, h3, h4, h5, Bool.false_eq_true, if_false, if_true]
  rfl

lemma parseStripped_finalAnswerTag (X : List Char) :
    parseStripped ("Final Answer:".data ++ X) = ⟨.Answer, ⟨stripL X⟩, none⟩ := by
  have h1 : isPre "Plan:".data ("Final Answer:".data ++ X) = false := rfl
  have h2 : isPre "PlanItem:".data ("Final Answer:".data ++ X) = false := rfl
  have h3 : isPre "Thought:".data ("Final Answer:".data ++ X) = false := rfl
  have h4 : isPre "Action:".data ("Final Answer:".data ++ X) = false := rfl
  have h5 : isPre "Observation:".data ("Final Answer:".data ++ X) = false := rfl
  have h6 : isPre "Final Answer:".data ("Final Answer:".data ++ X) = true := isPre_append_self _ _
  simp only [parseStripped, h1, h2, h3, h4, h5, h6, Bool.false_eq_true, if_false, if_true]
  rfl

lemma parseStripped_answerTag (X : List Char) :
    parseStripped ("Answer:".data ++ X) = ⟨.Answer, ⟨stripL X⟩, none⟩ := by
  have h1 : isPre "Plan:".data ("Answer:".data ++ X) = false := rfl
  have h2 : isPre "PlanItem:".data ("Answer:".data ++ X) = false := rfl
  have h3 : isPre "Thought:".data ("Answer:".data ++ X) = false := rfl
  have h4 : isPre "Action:".data ("Answer:".data ++ X) = false := rfl
  have h5 : isPre "Observation:".data ("Answer:".data ++ X) = false := rfl
  have h6 : isPre "Final Answer:".data ("Answer:".data ++ X) = false := rfl
  have h7 : isPre "Answer:".data ("Answer:".data ++ X) = true := isPre_append_self _ _
  simp only [parseStripped, h1, h2, h3, h4, h5, h6, h7, Bool.false_eq_true, if_false, if_true]
  rfl

lemma parseStripped_noTag (t : List Char)
    (h1 : isPre "Plan:".data t = false)
    (h2 : isPre "PlanItem:".data t = false)
    (h3 : isPre "Thought:".data t = false)
    (h4 : isPre "Action:".data t = false)
    (h5 : isPre "Observation:".data t = false)
    (h6 : isPre "Final Answer:".data t = false)
    (h7 : isPre "Answer:".data t = false) :
    parseStripped t = ⟨.Thought, ⟨t⟩, none⟩ := by
  simp only [parseStripped, h1, h2, h3, h4, h5, h6, h7, Bool.false_eq_true, if_false]

/-! ### `parse_agent_response` on wrapped inputs -/

lemma parse_wrap (d : Char) (m : List Char) (c : Char) (tag w1 r w2 : String)
    (htag : tag.data = d :: m ++ [c])
    (hd : d.isWhitespace = false) (hc : c.isWhitespace = false)
    (hw1 : wsOnly w1.data) (hw2 : wsOnly w2.data) :
    parse_agent_response (w1 ++ tag ++ r ++ w2) = parseStripped (tag.data ++ rstripL r.data) := by
  unfold parse_agent_response
  have hdata : (w1 ++ tag ++ r ++ w2).data = w1.data ++ tag.data ++ r.data ++ w2.data := by
    simp [String.data_append]
  rw [hdata, stripL_sandwich d m c w1.data tag.data r.data w2.data htag hd hc hw1 hw2]

lemma parse_wrap_planTag (w1 r w2 : String) (hw1 : wsOnly w1.data) (hw2 : wsOnly w2.data) :
    parse_agent_response (w1 ++ "Plan:" ++ r ++ w2) = ⟨.Plan, pystrip r, none⟩ := by
  rw [parse_wrap 'P' ['l', 'a', 'n'] ':' "Plan:" w1 r w2 rfl (by decide) (by decide) hw1 hw2,
    parseStripped_planTag, stripL_rstripL]
  rfl

lemma parse_wrap_planItemTag (w1 r w2 : String) (hw1 : wsOnly w1.data) (hw2 : wsOnly w2.data) :
    parse_agent_response (w1 ++ "PlanItem:" ++ r ++ w2) = ⟨.PlanItem, pystrip r, none⟩ := by
  rw [parse_wrap 'P' ['l', 'a', 'n', 'I', 't', 'e', 'm'] ':' "PlanItem:" w1 r w2 rfl
    (by decide) (by decide) hw1 hw2, parseStripped_planItemTag, stripL_rstripL]
  rfl

lemma parse_wrap_thoughtTag (w1 r w2 : String) (hw1 : wsOnly w1.data) (hw2 : wsOnly w2.data) :
    parse_agent_response (w1 ++ "Thought:" ++ r ++ w2) = ⟨.Thought, pystrip r, none⟩ := by
  rw [parse_wrap 'T' ['h', 'o', 'u', 'g', 'h', 't'] ':' "Thought:" w1 r w2 rfl
    (by decide) (by decide) hw1 hw2, parseStripped_thoughtTag, stripL_rstripL]
  rfl

lemma parse_wrap_actionTag (w1 r w2 : String) (hw1 : wsOnly w1.data) (hw2 : wsOnly w2.data) :
    parse_agent_response (w1 ++ "Action:" ++ r ++ w2) =
      (match matchAction (pystrip r).data with
       | some (n, a) => ⟨.Action, pystrip r, some ⟨⟨n⟩, ⟨stripQuotesL a⟩⟩⟩
       | none => ⟨.Action, pystrip r, none⟩) := by
  rw [parse_wrap 'A' ['c', 't', 'i', 'o', 'n'] ':' "Action:" w1 r w2 rfl
    (by decide) (by decide) hw1 hw2, parseStripped_actionTag, stripL_rstripL]
  rfl

lemma parse_wrap_obsTag (w1 r w2 : String) (hw1 : wsOnly w1.data) (hw2 : wsOnly w2.data) :
    parse_agent_response (w1 ++ "Observation:" ++ r ++ w2) = ⟨.Observation, pystrip r, none⟩ := by
  rw [parse_wrap 'O' ['b', 's', 'e', 'r', 'v', 'a', 't', 'i', 'o', 'n'] ':' "Observation:" w1 r w2
    rfl (by decide) (by decide) hw1 hw2, parseStripped_obsTag, stripL_rstripL]
  rfl

lemma parse_wrap_finalAnswerTag (w1 r w2 : String) (hw1 : wsOnly w1.data) (hw2 : wsOnly w2.data) :
    parse_agent_response (w1 ++ "Final Answer:" ++ r ++ w2) = ⟨.Answer, pystrip r, none⟩ := by
  rw [parse_wrap 'F' ['i', 'n', 'a', 'l', ' ', 'A', 'n', 's', 'w', 'e', 'r'] ':' "Final Answer:"
    w1 r w2 rfl (by decide) (by decide) hw1 hw2, parseStripped_finalAnswerTag, stripL_rstripL]
  rfl

lemma parse_wrap_answerTag (w1 r w2 : String) (hw1 : wsOnly w1.data) (hw2 : wsOnly w2.data) :
    parse_agent_response (w1 ++ "Answer:" ++ r ++ w2) = ⟨.Answer, pystrip r, none⟩ := by
  rw [parse_wrap 'A' ['n', 's', 'w', 'e', 'r'] ':' "Answer:" w1 r w2 rfl
    (by decide) (by decide) hw1 hw2, parseStripped_answerTag, stripL_rstripL]
  rfl

lemma parse_noTag (s : String)
    (h1 : startswith (pystrip s) "Plan:" = false)
    (h2 : startswith (pystrip s) "PlanItem:" = false)
    (h3 : startswith (pystrip s) "Thought:" = false)
    (h4 : startswith (pystrip s) "Action:" = false)
    (h5 : startswith (pystrip s) "Observation:" = false)
    (h6 : startswith (pystrip s) "Final Answer:" = false)
    (h7 : startswith (pystrip s) "Answer:" = false) :
    parse_agent_response s = ⟨.Thought, pystrip s, none⟩ :=
  parseStripped_noTag (stripL s.data) h1 h2 h3 h4 h5 h6 h7

/-- The forced-prefix reclassification used by the generate step. -/
lemma parse_forced_thought (r : String) :
    parse_agent_response ("Thought: " ++ r) = ⟨.Thought, pystrip r, none⟩ := by
  unfold parse_agent_response
  have hdata : ("Thought: " ++ r).data = "Thought:".data ++ (' ' :: r.data) := by
    rw [String.data_append]
    rfl
  rw [hdata, stripL_tag_append 'T' ['h', 'o', 'u', 'g', 'h', 't'] ':' "Thought:".data
    (' ' :: r.data) rfl (by decide) (by decide), parseStripped_thoughtTag, stripL_rstripL,
    stripL_cons_ws _ (by decide)]
  rfl

lemma isPre_exists {p l : List Char} (h : isPre p l = true) : ∃ X, l = p ++ X := by
  induction p generalizing l with
  | nil => exact ⟨l, rfl⟩
  | cons c p' ih =>
    cases l with
    | nil => simp [isPre] at h
    | cons a l' =>
      simp only [isPre, Bool.and_eq_true, beq_iff_eq] at h
      obtain ⟨rfl, h2⟩ := h
      obtain ⟨X, hX⟩ := ih h2
      exact ⟨X, by simp [hX]⟩

lemma parse_tag_space (d : Char) (m : List Char) (c : Char) (tag : String) (X : List Char)
    (htag : tag.data = d :: m ++ [c])
    (hd : d.isWhitespace = false) (hc : c.isWhitespace = false) :
    parse_agent_response (tag ++ " " ++ (⟨X⟩ : String))
      = parseStripped (tag.data ++ rstripL (' ' :: X)) := by
  unfold parse_agent_response
  have hdata : (tag ++ " " ++ (⟨X⟩ : String)).data = tag.data ++ (' ' :: X) := by
    rw [String.data_append, String.data_append, List.append_assoc]
    rfl
  rw [hdata, stripL_tag_append d m c tag.data (' ' :: X) htag hd hc]

/-- The recognized prefix that produced the classification of `text`
(empty when the fallback rule fired), following the classifier's cascade. -/
def matchedTag (text : String) : String :=
  let t := stripL text.data
  if isPre "Plan:".data t then "Plan:"
  else if isPre "PlanItem:".data t then "PlanItem:"
  else if isPre "Thought:".data t then "Thought:"
  else if isPre "Action:".data t then "Action:"
  else if isPre "Observation:".data t then "Observation:"
  else if isPre "Final Answer:".data t then "Final Answer:"
  else if isPre "Answer:".data t then "Answer:"
  else ""

/-- C9: re-wrapping the classifier's `content` output with the original
prefix and classifying again reproduces the identical event. -/
theorem parse_agent_response_rewrap_stable (text : String) :
    parse_agent_response (matchedTag text ++ " " ++ (parse_agent_response text).content)
      = parse_agent_response text := by
  cases h1 : isPre "Plan:".data (stripL text.data) with
  | true =>
    obtain ⟨X, hX⟩ := isPre_exists h1
    have hmt : matchedTag text = "Plan:" := by simp [matchedTag, h1]
    have hp : parse_agent_response text = ⟨.Plan, ⟨stripL X⟩, none⟩ := by
      unfold parse_agent_response
      rw [hX, parseStripped_planTag]
    have hcontent : (parse_agent_response text).content = ⟨stripL X⟩ := by rw [hp]
    rw [hmt, hcontent, hp,
      parse_tag_space 'P' ['l', 'a', 'n'] ':' "Plan:" (stripL X) rfl (by decide) (by decide),
      parseStripped_planTag, stripL_rstripL, stripL_cons_ws _ (by decide), stripL_idem]
  | false =>
  cases h2 : isPre "PlanItem:".data (stripL text.data) with
  | true =>
    obtain ⟨X, hX⟩ := isPre_exists h2
    have hmt : matchedTag text = "PlanItem:" := by simp [matchedTag, h1, h2]
    have hp : parse_agent_response text = ⟨.PlanItem, ⟨stripL X⟩, none⟩ := by
      unfold parse_agent_response
      rw [hX, parseStripped_planItemTag]
    have hcontent : (parse_agent_response text).content = ⟨stripL X⟩ := by rw [hp]
    rw [hmt, hcontent, hp,
      parse_tag_space 'P' ['l', 'a', 'n', 'I', 't', 'e', 'm'] ':' "PlanItem:" (stripL X) rfl
        (by decide) (by decide),
      parseStripped_planItemTag, stripL_rstripL, stripL_cons_ws _ (by decide), stripL_idem]
  | false =>
  cases h3 : isPre "Thought:".data (stripL text.data) with
  | true =>
    obtain ⟨X, hX⟩ := isPre_exists h3
    have hmt : matchedTag text = "Thought:" := by simp [matchedTag, h1, h2, h3]
    have hp : parse_agent_response text = ⟨.Thought, ⟨stripL X⟩, none⟩ := by
      unfold parse_agent_response
      rw [hX, parseStripped_thoughtTag]
    have hcontent : (parse_agent_response text).content = ⟨stripL X⟩ := by rw [hp]
    rw [hmt, hcontent, hp,
      parse_tag_space 'T' ['h', 'o', 'u', 'g', 'h', 't'] ':' "Thought:" (stripL X) rfl
        (by decide) (by decide),
      parseStripped_thoughtTag, stripL_rstripL, stripL_cons_ws _ (by decide), stripL_idem]
  | false =>
  cases h4 : isPre "Action:".data (stripL text.data) with
  | true =>
    obtain ⟨X, hX⟩ := isPre_exists h4
    have hmt : matchedTag text = "Action:" := by simp [matchedTag, h1, h2, h3, h4]
    have hp : parse_agent_response text =
        (match matchAction (stripL X) with
         | some (n, a) => ⟨.Action, ⟨stripL X⟩, some ⟨⟨n⟩, ⟨stripQuotesL a⟩⟩⟩
         | none => ⟨.Action, ⟨stripL X⟩, none⟩) := by
      unfold parse_agent_response
      rw [hX, parseStripped_actionTag]
    have hcontent : (parse_agent_response text).content = ⟨stripL X⟩ := by
      rw [hp]
      cases matchAction (stripL X) with
      | none => rfl
      | some p =>
        obtain ⟨n, a⟩ := p
        rfl
    rw [hmt, hcontent, hp,
      parse_tag_space 'A' ['c', 't', 'i', 'o', 'n'] ':' "Action:" (stripL X) rfl
        (by decide) (by decide),
      parseStripped_actionTag, stripL_rstripL, stripL_cons_ws _ (by decide), stripL_idem]
  | false =>
  cases h5 : isPre "Observation:".data (stripL text.data) with
  | true =>
    obtain ⟨X, hX⟩ := isPre_exists h5
    have hmt : matchedTag text = "Observation:" := by simp [matchedTag, h1, h2, h3, h4, h5]
    have hp : parse_agent_response text = ⟨.Observation, ⟨stripL X⟩, none⟩ := by
      unfold parse_agent_response
      rw [hX, parseStripped_obsTag]
    have hcontent : (parse_agent_response text).content = ⟨stripL X⟩ := by rw [hp]
    rw [hmt, hcontent, hp,
      parse_tag_space 'O' ['b', 's', 'e', 'r', 'v', 'a', 't', 'i', 'o', 'n'] ':' "Observation:"
        (stripL X) rfl (by decide) (by decide),
      parseStripped_obsTag, stripL_rstripL, stripL_cons_ws _ (by decide), stripL_idem]
  | false =>
  cases h6 : isPre "Final Answer:".data (stripL text.data) with
  | true =>
    obtain ⟨X, hX⟩ := isPre_exists h6
    have hmt : matchedTag text = "Final Answer:" := by simp [matchedTag, h1, h2, h3, h4, h5, h6]
    have hp : parse_agent_response text = ⟨.Answer, ⟨stripL X⟩, none⟩ := by
      unfold parse_agent_response
      rw [hX, parseStripped_finalAnswerTag]
    have hcontent : (parse_agent_response text).content = ⟨stripL X⟩ := by rw [hp]
    rw [hmt, hcontent, hp,
      parse_tag_space 'F' ['i', 'n', 'a', 'l', ' ', 'A', 'n', 's', 'w', 'e', 'r'] ':'
        "Final Answer:" (stripL X) rfl (by decide) (by decide),
      parseStripped_finalAnswerTag, stripL_rstripL, stripL_cons_ws _ (by decide), stripL_idem]
  | false =>
  cases h7 : isPre "Answer:".data (stripL text.data) with
  | true =>
    obtain ⟨X, hX⟩ := isPre_exists h7
    have hmt : matchedTag text = "Answer:" := by simp [matchedTag, h1, h2, h3, h4, h5, h6, h7]
    have hp : parse_agent_response text = ⟨.Answer, ⟨stripL X⟩, none⟩ := by
      unfold parse_agent_response
      rw [hX, parseStripped_answerTag]
    have hcontent : (parse_agent_response text).content = ⟨stripL X⟩ := by rw [hp]
    rw [hmt, hcontent, hp,
      parse_tag_space 'A' ['n', 's', 'w', 'e', 'r'] ':' "Answer:" (stripL X) rfl
        (by decide) (by decide),
      parseStripped_answerTag, stripL_rstripL, stripL_cons_ws _ (by decide), stripL_idem]
  | false =>
    have hmt : matchedTag text = "" := by simp [matchedTag, h1, h2, h3, h4, h5, h6, h7]
    have hp : parse_agent_response text = ⟨.Thought, ⟨stripL text.data⟩, none⟩ := by
      unfold parse_agent_response
      exact parseStripped_noTag _ h1 h2 h3 h4 h5 h6 h7
    have hcontent : (parse_agent_response text).content = ⟨stripL text.data⟩ := by rw [hp]
    rw [hmt, hcontent, hp]
    show parseStripped (stripL ((("" : String) ++ " " ++ (⟨stripL text.data⟩ : String)).data)) = _
    have hdata : (("" : String) ++ " " ++ (⟨stripL text.data⟩ : String)).data
        = ' ' :: stripL text.data := by
      rw [String.data_append, String.data_append]
      rfl
    rw [hdata, stripL_cons_ws _ (by decide), stripL_idem]
    exact parseStripped_noTag _ h1 h2 h3 h4 h5 h6 h7

/-- C3: classification by recognized prefix, and the `Thought` fallback. -/
theorem parse_agent_response_prefix_classification :
    (∀ w1 r w2 : String, wsOnly w1.data → wsOnly w2.data →
      parse_agent_response (w1 ++ "Plan:" ++ r ++ w2) = ⟨.Plan, pystrip r, none⟩) ∧
    (∀ w1 r w2 : String, wsOnly w1.data → wsOnly w2.data →
      parse_agent_response (w1 ++ "PlanItem:" ++ r ++ w2) = ⟨.PlanItem, pystrip r, none⟩) ∧
    (∀ w1 r w2 : String, wsOnly w1.data → wsOnly w2.data →
      parse_agent_response (w1 ++ "Thought:" ++ r ++ w2) = ⟨.Thought, pystrip r, none⟩) ∧
    (∀ w1 r w2 : String, wsOnly w1.data → wsOnly w2.data →
      (parse_agent_response (w1 ++ "Action:" ++ r ++ w2)).type = .Action ∧
      (parse_agent_response (w1 ++ "Action:" ++ r ++ w2)).content = pystrip r) ∧
    (∀ w1 r w2 : String, wsOnly w1.data → wsOnly w2.data →
      parse_agent_response (w1 ++ "Observation:" ++ r ++ w2) = ⟨.Observation, pystrip r, none⟩) ∧
    (∀ w1 r w2 : String, wsOnly w1.data → wsOnly w2.data →
      parse_agent_response (w1 ++ "Final Answer:" ++ r ++ w2) = ⟨.Answer, pystrip r, none⟩) ∧
    (∀ w1 r w2 : String, wsOnly w1.data → wsOnly w2.data →
      parse_agent_response (w1 ++ "Answer:" ++ r ++ w2) = ⟨.Answer, pystrip r, none⟩) ∧
    (∀ s : String,
      startswith (pystrip s) "Plan:" = false →
      startswith (pystrip s) "PlanItem:" = false →
      startswith (pystrip s) "Thought:" = false →
      startswith (pystrip s) "Action:" = false →
      startswith (pystrip s) "Observation:" = false →
      startswith (pystrip s) "Final Answer:" = false →
      startswith (pystrip s) "Answer:" = false →
      parse_agent_response s = ⟨.Thought, pystrip s, none⟩) := by
  refine ⟨fun w1 r w2 hw1 hw2 => parse_wrap_planTag w1 r w2 hw1 hw2,
    fun w1 r w2 hw1 hw2 => parse_wrap_planItemTag w1 r w2 hw1 hw2,
    fun w1 r w2 hw1 hw2 => parse_wrap_thoughtTag w1 r w2 hw1 hw2,
    fun w1 r w2 hw1 hw2 => ?_,
    fun w1 r w2 hw1 hw2 => parse_wrap_obsTag w1 r w2 hw1 hw2,
    fun w1 r w2 hw1 hw2 => parse_wrap_finalAnswerTag w1 r w2 hw1 hw2,
    fun w1 r w2 hw1 hw2 => parse_wrap_answerTag w1 r w2 hw1 hw2,
    fun s h1 h2 h3 h4 h5 h6 h7 => parse_noTag s h1 h2 h3 h4 h5 h6 h7⟩
  rw [parse_wrap_actionTag w1 r w2 hw1 hw2]
  cases matchAction (pystrip r).data with
  | none => exact ⟨rfl, rfl⟩
  | some p =>
    obtain ⟨n, a⟩ := p
    exact ⟨rfl, rfl⟩

/-- C3 witness. -/
theorem parse_agent_response_prefix_classification_witness :
    parse_agent_response ("  " ++ "Observation:" ++ " found it " ++ " ")
      = ⟨.Observation, "found it", none⟩ := by
  rw [parse_agent_response_prefix_classification.2.2.2.2.1 "  " " found it " " "
    (by decide) (by decide)]
  decide

/-- C4: the generate step's forced `"Thought: "` prefix always yields a
`Thought` event whose text is the reply trimmed. -/
theorem forced_thought_always_thought (r : String) :
    parse_agent_response ("Thought: " ++ r) = ⟨.Thought, pystrip r, none⟩ :=
  parse_forced_thought r

/-! ### Characterizing the action-call regex match -/

lemma takeWhile_allP_append {p : Char → Bool} {a : List Char} (b : List Char)
    (h : ∀ c ∈ a, p c = true) : (a ++ b).takeWhile p = a ++ b.takeWhile p := by
  induction a with
  | nil => rfl
  | cons c a' ih =>
    have hc := h c (List.mem_cons_self c a')
    simp [List.takeWhile_cons, hc, ih (fun x hx => h x (List.mem_cons_of_mem _ hx))]

lemma dropWhile_allP_append {p : Char → Bool} {a : List Char} (b : List Char)
    (h : ∀ c ∈ a, p c = true) : (a ++ b).dropWhile p = b.dropWhile p := by
  rw [List.dropWhile_append, List.dropWhile_eq_nil_iff.mpr h]
  simp

lemma matchAction_eq (n a t : List Char)
    (hn : n ≠ []) (hw : ∀ c ∈ n, isWordChar c = true) (ha : '\n' ∉ a)
    (ht : ')' ∉ t.takeWhile (fun c => c != '\n')) :
    matchAction (n ++ '(' :: (a ++ ')' :: t)) = some (n, a) := by
  have hne : n.isEmpty = false := by
    cases n with
    | nil => exact absurd rfl hn
    | cons _ _ => rfl
  have h1 : (n ++ '(' :: (a ++ ')' :: t)).takeWhile isWordChar = n := by
    rw [takeWhile_allP_append _ hw]
    simp [List.takeWhile_cons, isWordChar]
  have h2 : (n ++ '(' :: (a ++ ')' :: t)).dropWhile isWordChar = '(' :: (a ++ ')' :: t) := by
    rw [dropWhile_allP_append _ hw]
    exact dropWhile_cons_neg _ (by decide)
  have h3 : (a ++ ')' :: t).takeWhile (fun c => c != '\n')
      = a ++ ')' :: t.takeWhile (fun c => c != '\n') := by
    rw [takeWhile_allP_append _ (fun c hc => by
      have : c ≠ '\n' := fun hEq => ha (hEq ▸ hc)
      simpa using this)]
    simp [List.takeWhile_cons]
  have h4 : (a ++ ')' :: t.takeWhile (fun c => c != '\n')).reverse
      = (t.takeWhile (fun c => c != '\n')).reverse ++ ')' :: a.reverse := by
    rw [List.reverse_append, List.reverse_cons, List.append_assoc]
    rfl
  have h5 : ((t.takeWhile (fun c => c != '\n')).reverse ++ ')' :: a.reverse).dropWhile
        (fun c => c != ')') = ')' :: a.reverse := by
    rw [dropWhile_allP_append _ (fun c hc => by
      have hmem : c ∈ t.takeWhile (fun c => c != '\n') := List.mem_reverse.mp hc
      have : c ≠ ')' := fun hEq => ht (hEq ▸ hmem)
      simpa using this)]
    exact dropWhile_cons_neg _ (by decide)
  simp only [matchAction, h1, h2, hne, Bool.false_eq_true, if_false, h3, h4, h5,
    List.reverse_reverse]

lemma rstripL_decomp (t : List Char) : ∃ u, t = rstripL t ++ u := by
  refine ⟨(t.reverse.takeWhile Char.isWhitespace).reverse, ?_⟩
  conv_lhs => rw [← List.reverse_reverse t,
    ← List.takeWhile_append_dropWhile Char.isWhitespace t.reverse]
  rw [List.reverse_append]
  rfl

lemma mem_takeWhile_of_append {p : Char → Bool} {x : Char} {l : List Char} (u : List Char)
    (h : x ∈ l.takeWhile p) : x ∈ (l ++ u).takeWhile p := by
  induction l with
  | nil => simp at h
  | cons c l' ih =>
    rw [List.takeWhile_cons] at h
    by_cases hc : p c = true
    · rw [if_pos hc] at h
      rcases List.mem_cons.mp h with rfl | h'
      · simp [List.takeWhile_cons, hc]
      · simp [List.takeWhile_cons, hc, ih h']
    · rw [if_neg hc] at h
      simp at h
lemma mem_takeWhile_rstripL {p : Char → Bool} {x : Char} {t : List Char}
    (h : x ∈ (rstripL t).takeWhile p) : x ∈ t.takeWhile p := by
  obtain ⟨u, hu⟩ := rstripL_decomp t
  rw [hu]
  exact mem_takeWhile_of_append u h

/-- C2 (amended): action-call metadata extraction.  A matching remainder is
`name(argument)` where the argument contains no newline and no `)` occurs
between the closing `)` and the next newline; the attached argument has all
surrounding quote characters stripped.  A non-matching remainder still
yields kind `Action` with the trimmed remainder and no metadata. -/
theorem parse_action_metadata :
    (∀ (w1 w2 : String) (n a t : List Char),
      wsOnly w1.data → wsOnly w2.data →
      n ≠ [] → (∀ c ∈ n, isWordChar c = true) → '\n' ∉ a →
      ')' ∉ t.takeWhile (fun c => c != '\n') →
      parse_agent_response (w1 ++ "Action:" ++ (⟨n ++ '(' :: (a ++ ')' :: t)⟩ : String) ++ w2)
        = ⟨.Action, pystrip ⟨n ++ '(' :: (a ++ ')' :: t)⟩, some ⟨⟨n⟩, ⟨stripQuotesL a⟩⟩⟩) ∧
    (∀ r : String, matchAction (pystrip r).data = none →
      parse_agent_response ("Action:" ++ r) = ⟨.Action, pystrip r, none⟩) := by
  constructor
  · intro w1 w2 n a t hw1 hw2 hn hw ha ht
    rw [parse_wrap_actionTag w1 _ w2 hw1 hw2]
    have hma : matchAction (pystrip (⟨n ++ '(' :: (a ++ ')' :: t)⟩ : String)).data
        = some (n, a) := by
      obtain ⟨d, n', rfl⟩ : ∃ d n', n = d :: n' := by
        cases n with
        | nil => exact absurd rfl hn
        | cons d n' => exact ⟨d, n', rfl⟩
      have hd : d.isWhitespace = false := isWordChar_not_ws (hw d (List.mem_cons_self d n'))
      show matchAction (stripL ((d :: n') ++ '(' :: (a ++ ')' :: t))) = _
      have hshape : (d :: n') ++ '(' :: (a ++ ')' :: t)
          = d :: ((n' ++ '(' :: a) ++ ')' :: t) := by simp
      rw [hshape, stripL_cons_append _ _ hd (by decide)]
      have hshape2 : d :: (n' ++ '(' :: a) ++ ')' :: rstripL t
          = (d :: n') ++ '(' :: (a ++ ')' :: rstripL t) := by simp
      rw [hshape2]
      exact matchAction_eq (d :: n') a (rstripL t) hn hw ha
        (fun hx => ht (mem_takeWhile_rstripL hx))
    rw [hma]
  · intro r hma
    unfold parse_agent_response
    have hdata : (("Action:" : String) ++ r).data = "Action:".data ++ r.data :=
      String.data_append _ _
    rw [hdata, stripL_tag_append 'A' ['c', 't', 'i', 'o', 'n'] ':' "Action:".data r.data rfl
      (by decide) (by decide), parseStripped_actionTag, stripL_rstripL,
      show stripL r.data = (pystrip r).data from rfl, hma]

/-- C2 witness. -/
theorem parse_action_metadata_witness :
    parse_agent_response (" " ++ "Action:" ++ (⟨"Search('btc')".data⟩ : String) ++ " ")
      = ⟨.Action, pystrip ⟨"Search('btc')".data⟩, some ⟨⟨"Search".data⟩, ⟨stripQuotesL "'btc'".data⟩⟩⟩ := by
  have h := parse_action_metadata.1 " " " " "Search".data "'btc'".data []
    (by decide) (by decide) (by decide) (by decide) (by decide) (by decide)
  exact h

/-- C2 counterexample: the code strips every layer of surrounding quotes
from the matched argument, not one layer. -/
theorem parse_action_one_layer_counterexample :
    (parse_agent_response "Action: Search(\"\"q\"\")").metadata = some ⟨"Search", "q"⟩ ∧
    (parse_agent_response "Action: Search(\"\"q\"\")").metadata ≠ some ⟨"Search", "\"q\""⟩ := by
  decide

/-! ### Plan parsing: lines, the spec-side line rule, and their agreement -/

/-- Join lines with `'\n'` (the inverse of `splitNl` on newline-free lines). -/
def joinNl : List (List Char) → List Char
  | [] => []
  | [l] => l
  | l :: ls => l ++ '\n' :: joinNl ls

lemma splitNl_no_nl {l : List Char} (h : '\n' ∉ l) : splitNl l = [l] := by
  induction l with
  | nil => rfl
  | cons c t ih =>
    have hc : c ≠ '\n' := fun hEq => h (hEq ▸ List.mem_cons_self c t)
    have ht : '\n' ∉ t := fun hm => h (List.mem_cons_of_mem _ hm)
    simp [splitNl, hc, ih ht]

lemma splitNl_append_nl {l : List Char} (X : List Char) (h : '\n' ∉ l) :
    splitNl (l ++ '\n' :: X) = l :: splitNl X := by
  induction l with
  | nil => simp [splitNl]
  | cons c t ih =>
    have hc : c ≠ '\n' := fun hEq => h (hEq ▸ List.mem_cons_self c t)
    have ht : '\n' ∉ t := fun hm => h (List.mem_cons_of_mem _ hm)
    simp [splitNl, hc, ih ht]

lemma splitNl_joinNl : ∀ L : List (List Char), L ≠ [] → (∀ l ∈ L, '\n' ∉ l) →
    splitNl (joinNl L) = L := by
  intro L
  induction L with
  | nil => intro h; exact absurd rfl h
  | cons l L' ih =>
    intro _ hmem
    cases L' with
    | nil => exact splitNl_no_nl (hmem l (List.mem_cons_self l []))
    | cons l2 L'' =>
      have hjoin : joinNl (l :: l2 :: L'') = l ++ '\n' :: joinNl (l2 :: L'') := rfl
      rw [hjoin, splitNl_append_nl _ (hmem l (List.mem_cons_self _ _)),
        ih (by simp) (fun x hx => hmem x (List.mem_cons_of_mem _ hx))]

/-- Modelled from the spec (§4.1, `classify_plan`): "a line matches if,
after stripping leading whitespace, it begins with one or more decimal
digits, a literal `.`, optional whitespace, then the payload.  Return the
trimmed payload of every matching line".  Stated as the per-line rule, to
be compared with the source's regex-based rule. -/
def planLineSpec (l : List Char) : Option String :=
  let s1 := l.dropWhile Char.isWhitespace
  if (s1.takeWhile Char.isDigit).isEmpty then none
  else
    match s1.dropWhile Char.isDigit with
    | [] => none
    | c :: rest =>
      if c = '.' then (if rest.isEmpty then none else some ⟨stripL rest⟩)
      else none

lemma stripL_lstripL (l : List Char) : stripL (lstripL l) = stripL l := by
  show rstripL (lstripL (lstripL l)) = rstripL (lstripL l)
  unfold lstripL
  rw [dropWhile_idem]

lemma stripL_eq_nil_of_wsOnly {l : List Char} (h : wsOnly l) : stripL l = [] := by
  show rstripL (lstripL l) = []
  unfold lstripL
  rw [dropWhile_ws_of_wsOnly h]
  rfl

lemma getLast?_mem_cons (c : Char) (l : List Char) :
    ∃ x, (c :: l).getLast? = some x ∧ x ∈ c :: l := by
  induction l generalizing c with
  | nil => exact ⟨c, List.getLast?_singleton c, by simp⟩
  | cons d l' ih =>
    obtain ⟨x, hx, hm⟩ := ih d
    exact ⟨x, by rw [List.getLast?_cons_cons]; exact hx, List.mem_cons_of_mem _ hm⟩

/-- The source's regex rule (group 1 then `.strip()`) agrees line by line
with the spec's plan-line rule. -/
lemma planLine_code_eq_spec (l : List Char) :
    (planRegexGroup1 l).map (fun g => (⟨stripL g⟩ : String)) = planLineSpec l := by
  unfold planRegexGroup1 planLineSpec
  cases h1 : ((l.dropWhile Char.isWhitespace).takeWhile Char.isDigit).isEmpty with
  | true => simp [h1]
  | false =>
    simp only [h1, Bool.false_eq_true, if_false]
    cases h2 : (l.dropWhile Char.isWhitespace).dropWhile Char.isDigit with
    | nil => rfl
    | cons c rest =>
      by_cases hc : c = '.'
      · subst hc
        cases h3 : rest.dropWhile Char.isWhitespace with
        | nil =>
          have hws : wsOnly rest := List.dropWhile_eq_nil_iff.mp h3
          cases rest with
          | nil => rfl
          | cons r0 rs =>
            obtain ⟨x, hx, hm⟩ := getLast?_mem_cons r0 rs
            have hxw : x.isWhitespace = true := hws x hm
            have hs1 : stripL [x] = [] := by
              rw [stripL_cons_ws _ hxw]
              rfl
            simp [h3, hx, hs1, stripL_eq_nil_of_wsOnly hws, String.ext_iff]
        | cons p ps =>
          have hres : rest.isEmpty = false := by
            cases rest with
            | nil => simp at h3
            | cons _ _ => rfl
          have hps : stripL (p :: ps) = stripL rest := by
            rw [← h3, show rest.dropWhile Char.isWhitespace = lstripL rest from rfl,
              stripL_lstripL]
          simp [h3, hres, hps, String.ext_iff]
      · simp [hc]

/-- C6: `parse_plan` returns exactly the trimmed payloads of the matching
lines (per the spec's line rule), in original line order; non-matching
lines are skipped, and zero matching lines give the empty list. -/
theorem parse_plan_matches_spec (L : List (List Char)) (hL : L ≠ [])
    (hn : ∀ l ∈ L, '\n' ∉ l) :
    parse_plan ⟨joinNl L⟩ = L.filterMap planLineSpec := by
  unfold parse_plan
  rw [show (String.mk (joinNl L)).data = joinNl L from rfl, splitNl_joinNl L hL hn,
    show (fun line => (planRegexGroup1 line).map (fun g => (⟨stripL g⟩ : String)))
      = planLineSpec from funext planLine_code_eq_spec]

/-- C6 witness: two matching lines among three non-matching ones. -/
theorem parse_plan_matches_spec_witness :
    parse_plan ⟨joinNl ["Here is the plan".data, "1. Find ticker".data, "".data,
        " 2.   Get price  ".data, "done".data]⟩
      = ["Here is the plan".data, "1. Find ticker".data, "".data,
        " 2.   Get price  ".data, "done".data].filterMap planLineSpec ∧
    ["Here is the plan".data, "1. Find ticker".data, "".data,
        " 2.   Get price  ".data, "done".data].filterMap planLineSpec
      = ["Find ticker", "Get price"] :=
  ⟨parse_plan_matches_spec _ (by decide) (by decide), by decide⟩

/-- C10: a line of optional whitespace, digits, `.`, and at least one
trailing whitespace character (and nothing else) yields the empty-string
plan item. -/
theorem parse_plan_empty_item (w1 ds w2 : List Char)
    (hw1 : wsOnly w1) (hn1 : '\n' ∉ w1)
    (hds : ds ≠ []) (hdig : ∀ c ∈ ds, c.isDigit = true)
    (hw2 : wsOnly w2) (hn2 : '\n' ∉ w2) (hne : w2 ≠ []) :
    parse_plan ⟨w1 ++ ds ++ '.' :: w2⟩ = [""] := by
  have hlineNoNl : '\n' ∉ w1 ++ ds ++ '.' :: w2 := by
    intro hm
    simp only [List.mem_append, List.mem_cons] at hm
    rcases hm with (h | h) | (h | h)
    · exact hn1 h
    · exact absurd (hdig _ h) (by decide)
    · exact absurd h (by decide)
    · exact hn2 h
  unfold parse_plan
  rw [show (String.mk (w1 ++ ds ++ '.' :: w2)).data = w1 ++ ds ++ '.' :: w2 from rfl,
    splitNl_no_nl hlineNoNl]
  obtain ⟨d0, ds', rfl⟩ : ∃ d0 ds', ds = d0 :: ds' := by
    cases ds with
    | nil => exact absurd rfl hds
    | cons a b => exact ⟨a, b, rfl⟩
  obtain ⟨g0, gs, rfl⟩ : ∃ g0 gs, w2 = g0 :: gs := by
    cases w2 with
    | nil => exact absurd rfl hne
    | cons a b => exact ⟨a, b, rfl⟩
  have hd0 : d0.isWhitespace = false := isDigit_not_ws (hdig d0 (List.mem_cons_self _ _))
  have hs1 : (w1 ++ (d0 :: ds') ++ '.' :: g0 :: gs).dropWhile Char.isWhitespace
      = (d0 :: ds') ++ '.' :: g0 :: gs := by
    rw [List.append_assoc, dropWhile_ws_append_wsOnly _ hw1]
    exact dropWhile_cons_neg _ hd0
  have htake : ((d0 :: ds') ++ '.' :: g0 :: gs).takeWhile Char.isDigit = d0 :: ds' := by
    rw [takeWhile_allP_append _ hdig]
    simp [List.takeWhile_cons]
  have hdrop : ((d0 :: ds') ++ '.' :: g0 :: gs).dropWhile Char.isDigit = '.' :: g0 :: gs := by
    rw [dropWhile_allP_append _ hdig]
    exact dropWhile_cons_neg _ (by decide)
  have hw2' : (g0 :: gs).dropWhile Char.isWhitespace = [] := dropWhile_ws_of_wsOnly hw2
  obtain ⟨x, hx, hxm⟩ := getLast?_mem_cons g0 gs
  have hxw : x.isWhitespace = true := hw2 x hxm
  have hsx : stripL [x] = [] := by
    rw [stripL_cons_ws _ hxw]
    rfl
  have hgroup : planRegexGroup1 (w1 ++ (d0 :: ds') ++ '.' :: g0 :: gs) = some [x] := by
    simp only [planRegexGroup1]
    rw [hs1, htake, hdrop]
    simp [hw2', hx]
  simp only [List.filterMap_cons, List.filterMap_nil, hgroup]
  rw [show Option.map (fun g => (⟨stripL g⟩ : String)) (some [x])
      = some (⟨stripL [x]⟩ : String) from rfl, hsx]

/-- C10 witness. -/
theorem parse_plan_empty_item_witness : parse_plan ⟨"1. ".data⟩ = [""] := by
  have h := parse_plan_empty_item [] ['1'] [' '] (by decide) (by decide) (by decide)
    (by decide) (by decide) (by decide) (by decide)
  simpa using h

/-! ### Orchestrator lemmas -/

lemma parseStripped_type_ne_plan (t : List Char) (h : isPre "Plan:".data t = false) :
    (parseStripped t).type ≠ ResponseType.Plan := by
  unfold parseStripped
  simp only [h, Bool.false_eq_true, if_false]
  split
  · simp
  split
  · simp
  split
  · split <;> simp
  split
  · simp
  split
  · simp
  split
  · simp
  · simp

lemma parse_type_ne_plan {r : String} (h : startswith (pystrip r) "Plan:" = false) :
    (parse_agent_response r).type ≠ ResponseType.Plan :=
  parseStripped_type_ne_plan (stripL r.data) h

lemma subtaskLoop_no_plan : ∀ (fuel : Nat) (msgs : List Message) (log : List AgentResponse)
    (replies rem : List String) (log' : List AgentResponse),
    subtaskLoop fuel msgs log replies = some (log', rem) →
    (∀ r ∈ replies, startswith (pystrip r) "Plan:" = false) →
    (∀ e ∈ log, e.type ≠ ResponseType.Plan) →
    ((∀ e ∈ log', e.type ≠ ResponseType.Plan) ∧
      ∀ r ∈ rem, startswith (pystrip r) "Plan:" = false) := by
  intro fuel
  induction fuel with
  | zero =>
    intro msgs log replies rem log' h
    simp [subtaskLoop] at h
  | succ fuel ih =>
    intro msgs log replies rem log' h hrep hlog
    cases replies with
    | nil => simp [subtaskLoop] at h
    | cons response_text rest =>
      cases rest with
      | nil => simp [subtaskLoop] at h
      | cons continue_text rest2 =>
        have hthought : (parse_agent_response ("Thought: " ++ response_text)).type
            ≠ ResponseType.Plan := by
          rw [parse_forced_thought]
          simp
        have hcont : (parse_agent_response continue_text).type ≠ ResponseType.Plan :=
          parse_type_ne_plan (hrep continue_text (by simp))
        have hrest2 : ∀ r ∈ rest2, startswith (pystrip r) "Plan:" = false :=
          fun r hr => hrep r (by simp [hr])
        simp only [subtaskLoop] at h
        split at h
        · -- Action branch
          refine ih _ _ _ _ _ h hrest2 ?_
          intro e he
          simp only [List.mem_append, List.mem_singleton] at he
          rcases he with ((he | rfl) | rfl) | rfl
          · exact hlog e he
          · exact hthought
          · exact hcont
          · simp
        · split at h
          · -- Answer branch
            cases h
            refine ⟨?_, hrest2⟩
            intro e he
            simp only [List.mem_append, List.mem_singleton] at he
            rcases he with (he | rfl) | rfl
            · exact hlog e he
            · exact hthought
            · exact hcont
          · -- other branch
            refine ih _ _ _ _ _ h hrest2 ?_
            intro e he
            simp only [List.mem_append, List.mem_singleton] at he
            rcases he with (he | rfl) | rfl
            · exact hlog e he
            · exact hthought
            · exact hcont

lemma execItems_no_plan : ∀ (items : List String) (fuel : Nat) (log : List AgentResponse)
    (replies rem : List String) (log' : List AgentResponse),
    execItems fuel items log replies = some (log', rem) →
    (∀ r ∈ replies, startswith (pystrip r) "Plan:" = false) →
    (∀ e ∈ log, e.type ≠ ResponseType.Plan) →
    ∀ e ∈ log', e.type ≠ ResponseType.Plan := by
  intro items
  induction items with
  | nil =>
    intro fuel log replies rem log' h hrep hlog
    simp only [execItems] at h
    cases h
    exact hlog
  | cons it items ih =>
    intro fuel log replies rem log' h hrep hlog
    simp only [execItems] at h
    split at h
    · exact absurd h (by simp)
    · next log2 replies2 heq =>
      have hstep := subtaskLoop_no_plan fuel _ _ _ _ _ heq hrep ?_
      · exact ih fuel log2 replies2 rem log' h hstep.2 hstep.1
      · intro e he
        simp only [List.mem_append, List.mem_singleton] at he
        rcases he with he | rfl
        · exact hlog e he
        · simp

lemma run_agent_eq (fuel : Nat) (plan_text : String) (rest : List String) (prompt : String)
    (res : AgentResult) (h : run_agent fuel (plan_text :: rest) prompt = some res) :
    ∃ log rem, execItems fuel (parse_plan plan_text) [] rest = some (log, rem) ∧
      res = ⟨parse_plan plan_text, log,
        (log.reverse.find? (fun e => decide (e.type = ResponseType.Answer))).map
          (fun e => e.content)⟩ := by
  simp only [run_agent] at h
  split at h
  · exact absurd h (by simp)
  · next log rem heq =>
    cases h
    exact ⟨log, rem, heq, rfl⟩

/-- C1 (amended): provided no model reply is classified as `Plan` (for
example, no trimmed reply starts with `"Plan:"`), every event of a
completed run's log has kind among the five orchestrator kinds; without
that proviso a continuation reply starting with `"Plan:"` is logged as a
`Plan` event (see the counterexample). -/
theorem run_agent_log_kinds (fuel : Nat) (replies : List String) (prompt : String)
    (res : AgentResult) (hrun : run_agent fuel replies prompt = some res)
    (hrep : ∀ r ∈ replies, startswith (pystrip r) "Plan:" = false) :
    ∀ e ∈ res.log, e.type ∈ [ResponseType.PlanItem, ResponseType.Thought,
      ResponseType.Action, ResponseType.Observation, ResponseType.Answer] := by
  cases replies with
  | nil => simp [run_agent] at hrun
  | cons plan_text rest =>
    obtain ⟨log, rem, hexec, rfl⟩ := run_agent_eq fuel plan_text rest prompt res hrun
    intro e he
    have hne : e.type ≠ ResponseType.Plan :=
      execItems_no_plan _ fuel [] rest rem log hexec
        (fun r hr => hrep r (by simp [hr])) (by intro x hx; simp at hx) e he
    cases hty : e.type <;> simp [hty] at hne ⊢

/-- C1 witness. -/
theorem run_agent_log_kinds_witness :
    (AgentResponse.mk ResponseType.Thought "x" none).type
      ∈ [ResponseType.PlanItem, ResponseType.Thought, ResponseType.Action,
        ResponseType.Observation, ResponseType.Answer] :=
  run_agent_log_kinds 1 ["1. a", "x", "Answer: done"] "p"
    ⟨["a"], [⟨.PlanItem, "a", none⟩, ⟨.Thought, "x", none⟩, ⟨.Answer, "done", none⟩],
      some "done"⟩
    (by decide) (by decide) ⟨.Thought, "x", none⟩ (by decide)

/-- C1 counterexample: a run whose continuation reply is `"Plan: hack"`
appends a `Plan`-kind event to the log. -/
theorem run_agent_plan_event_counterexample :
    run_agent 2 ["1. a", "x", "Plan: hack", "y", "Answer: done"] "p"
      = some ⟨["a"],
          [⟨ResponseType.PlanItem, "a", none⟩, ⟨ResponseType.Thought, "x", none⟩,
           ⟨ResponseType.Plan, "hack", none⟩, ⟨ResponseType.Thought, "y", none⟩,
           ⟨ResponseType.Answer, "done", none⟩], some "done"⟩ := by
  decide

lemma find?_append_none {p : AgentResponse → Bool} {l1 : List AgentResponse}
    (l2 : List AgentResponse) (h : ∀ x ∈ l1, p x = false) :
    (l1 ++ l2).find? p = l2.find? p := by
  have hnone : l1.find? p = none := List.find?_eq_none.mpr (fun x hx => by simp [h x hx])
  rw [List.find?_append, hnone]
  rfl

/-- C5: the final answer is the text of the last `Answer`-kind event of the
log, and `none` when the log has no `Answer`-kind event (the run still
returns a normal result). -/
theorem run_agent_final_answer (fuel : Nat) (replies : List String) (prompt : String)
    (res : AgentResult) (hrun : run_agent fuel replies prompt = some res) :
    ((∀ e ∈ res.log, e.type ≠ ResponseType.Answer) → res.final_answer = none) ∧
    (∀ (l1 : List AgentResponse) (e : AgentResponse) (l2 : List AgentResponse),
      res.log = l1 ++ e :: l2 → e.type = ResponseType.Answer →
      (∀ x ∈ l2, x.type ≠ ResponseType.Answer) → res.final_answer = some e.content) := by
  cases replies with
  | nil => simp [run_agent] at hrun
  | cons plan_text rest =>
    obtain ⟨log, rem, hexec, rfl⟩ := run_agent_eq fuel plan_text rest prompt res hrun
    constructor
    · intro hnone
      show (log.reverse.find? (fun x => decide (x.type = ResponseType.Answer))).map
        (fun x => x.content) = none
      have h1 : log.reverse.find? (fun x => decide (x.type = ResponseType.Answer)) = none :=
        List.find?_eq_none.mpr (fun x hx => by simp [hnone x (List.mem_reverse.mp hx)])
      rw [h1]
      rfl
    · intro l1 e l2 hlog hty hl2
      have hlog' : log = l1 ++ e :: l2 := hlog
      have hrev : log.reverse = l2.reverse ++ e :: l1.reverse := by
        rw [hlog', List.reverse_append, List.reverse_cons, List.append_assoc]
        rfl
      have hnone2 : ∀ x ∈ l2.reverse,
          (fun x => decide (x.type = ResponseType.Answer)) x = false := by
        intro x hx
        simp [hl2 x (List.mem_reverse.mp hx)]
      show (log.reverse.find? (fun x => decide (x.type = ResponseType.Answer))).map
        (fun x => x.content) = some e.content
      rw [hrev, find?_append_none _ hnone2, List.find?_cons_of_pos _ (by simp [hty])]
      rfl

/-- C5 witness: a completed run whose log has no `Answer` event (empty
plan) yields `final_answer = none`. -/
theorem run_agent_final_answer_witness :
    run_agent 1 ["no plan here"] "p" = some ⟨[], [], none⟩ ∧
    (AgentResult.mk [] [] none).final_answer = none :=
  ⟨by decide,
    (run_agent_final_answer 1 ["no plan here"] "p" ⟨[], [], none⟩ (by decide)).1
      (by intro e he; simp at he)⟩

lemma subtaskLoop_immediate_answer (fuel : Nat) (msgs : List Message)
    (log : List AgentResponse) (r : String) (rest : List String) :
    subtaskLoop (fuel + 1) msgs log (r :: "Final Answer: 42" :: rest)
      = some (log ++ [⟨.Thought, pystrip r, none⟩, ⟨.Answer, "42", none⟩], rest) := by
  have hfa : parse_agent_response "Final Answer: 42" = ⟨.Answer, "42", none⟩ := by decide
  simp only [subtaskLoop, parse_forced_thought, hfa]
  simp

lemma execItems_immediate_answer (fuel : Nat) (r : String) :
    ∀ (items : List String) (log : List AgentResponse),
    execItems (fuel + 1) items log (items.flatMap (fun _ => [r, "Final Answer: 42"]))
      = some (log ++ items.flatMap (fun it =>
          [⟨.PlanItem, it, none⟩, ⟨.Thought, pystrip r, none⟩, ⟨.Answer, "42", none⟩]), []) := by
  intro items
  induction items with
  | nil =>
    intro log
    simp [execItems]
  | cons it items ih =>
    intro log
    rw [List.flatMap_cons]
    simp only [execItems, List.cons_append, List.singleton_append]
    rw [subtaskLoop_immediate_answer]
    simp [ih, List.flatMap_cons, List.append_assoc]

lemma bind_find_answer (r : String) : ∀ (items : List String), items ≠ [] →
    (items.flatMap (fun it => [⟨.PlanItem, it, none⟩, ⟨.Thought, pystrip r, none⟩,
        (⟨.Answer, "42", none⟩ : AgentResponse)])).reverse.find?
      (fun e => decide (e.type = ResponseType.Answer)) = some ⟨.Answer, "42", none⟩ := by
  intro items
  induction items with
  | nil => intro h; exact absurd rfl h
  | cons it items ih =>
    intro _
    rw [List.flatMap_cons, List.reverse_append, List.find?_append]
    cases items with
    | nil => simp
    | cons it2 items2 =>
      rw [ih (by simp)]
      rfl

/-- C7: a run in which every subtask's first continuation reply is
`"Final Answer: 42"` logs exactly `[PlanItem, Thought, Answer]` per
subtask and ends with `final_answer = "42"`. -/
theorem run_agent_immediate_final_answer (fuel : Nat) (prompt plan_text r : String)
    (items : List String) (hplan : parse_plan plan_text = items) (hne : items ≠ []) :
    run_agent (fuel + 1) (plan_text :: items.flatMap (fun _ => [r, "Final Answer: 42"])) prompt
      = some ⟨items,
          items.flatMap (fun it => [⟨.PlanItem, it, none⟩, ⟨.Thought, pystrip r, none⟩,
            ⟨.Answer, "42", none⟩]),
          some "42"⟩ := by
  simp only [run_agent, hplan, execItems_immediate_answer]
  rw [show ([] : List AgentResponse) ++ items.flatMap (fun it =>
      [⟨.PlanItem, it, none⟩, ⟨.Thought, pystrip r, none⟩, ⟨.Answer, "42", none⟩])
    = items.flatMap (fun it => [⟨.PlanItem, it, none⟩, ⟨.Thought, pystrip r, none⟩,
      ⟨.Answer, "42", none⟩]) from List.nil_append _]
  rw [bind_find_answer r items hne]
  rfl

/-- C7 witness. -/
theorem run_agent_immediate_final_answer_witness :
    run_agent 1 ["1. a", "think", "Final Answer: 42"] "p"
      = some ⟨["a"], [⟨.PlanItem, "a", none⟩, ⟨.Thought, pystrip "think", none⟩,
          ⟨.Answer, "42", none⟩], some "42"⟩ :=
  run_agent_immediate_final_answer 0 "p" "1. a" "think" ["a"] (by decide) (by decide)

lemma subtaskLoop_extends : ∀ (fuel : Nat) (msgs : List Message) (log : List AgentResponse)
    (replies rem : List String) (log' : List AgentResponse),
    subtaskLoop fuel msgs log replies = some (log', rem) → ∃ d, log' = log ++ d := by
  intro fuel
  induction fuel with
  | zero =>
    intro msgs log replies rem log' h
    simp [subtaskLoop] at h
  | succ fuel ih =>
    intro msgs log replies rem log' h
    cases replies with
    | nil => simp [subtaskLoop] at h
    | cons response_text rest =>
      cases rest with
      | nil => simp [subtaskLoop] at h
      | cons continue_text rest2 =>
        simp only [subtaskLoop] at h
        split at h
        · obtain ⟨d, hd⟩ := ih _ _ _ _ _ h
          exact ⟨parse_agent_response ("Thought: " ++ response_text) ::
              parse_agent_response continue_text ::
              (⟨ResponseType.Observation,
                _execute_action (parse_agent_response continue_text), none⟩ : AgentResponse) :: d,
            by rw [hd]; simp [List.append_assoc]⟩
        · split at h
          · cases h
            exact ⟨[parse_agent_response ("Thought: " ++ response_text),
                parse_agent_response continue_text], by simp [List.append_assoc]⟩
          · obtain ⟨d, hd⟩ := ih _ _ _ _ _ h
            exact ⟨parse_agent_response ("Thought: " ++ response_text) ::
                parse_agent_response continue_text :: d,
              by rw [hd]; simp [List.append_assoc]⟩

lemma execItems_decomposition : ∀ (items : List String) (fuel : Nat)
    (log : List AgentResponse) (replies rem : List String) (log' : List AgentResponse),
    execItems fuel items log replies = some (log', rem) →
    ∃ segs : List (List AgentResponse), segs.length = items.length ∧
      log' = log ++ (items.zip segs).flatMap
        (fun p => AgentResponse.mk ResponseType.PlanItem p.1 none :: p.2) := by
  intro items
  induction items with
  | nil =>
    intro fuel log replies rem log' h
    simp only [execItems] at h
    cases h
    exact ⟨[], rfl, by simp⟩
  | cons it items ih =>
    intro fuel log replies rem log' h
    simp only [execItems] at h
    split at h
    · exact absurd h (by simp)
    · next log2 replies2 heq =>
      obtain ⟨d, hd⟩ := subtaskLoop_extends fuel _ _ _ _ _ heq
      obtain ⟨segs, hlen, hlog⟩ := ih fuel log2 replies2 rem log' h
      refine ⟨d :: segs, by simp [hlen], ?_⟩
      rw [hlog, hd]
      simp [List.zip_cons_cons, List.flatMap_cons, List.append_assoc]

/-- C8: the log of a completed run decomposes, in order, into one
`PlanItem`-kind event per plan item followed by that subtask's events. -/
theorem run_agent_planitem_structure (fuel : Nat) (replies : List String) (prompt : String)
    (res : AgentResult) (hrun : run_agent fuel replies prompt = some res) :
    ∃ segs : List (List AgentResponse), segs.length = res.plan_items.length ∧
      res.log = (res.plan_items.zip segs).flatMap
        (fun p => AgentResponse.mk ResponseType.PlanItem p.1 none :: p.2) := by
  cases replies with
  | nil => simp [run_agent] at hrun
  | cons plan_text rest =>
    obtain ⟨log, rem, hexec, rfl⟩ := run_agent_eq fuel plan_text rest prompt res hrun
    obtain ⟨segs, hlen, hlog⟩ := execItems_decomposition _ fuel [] rest rem log hexec
    exact ⟨segs, hlen, by simpa using hlog⟩

/-- C8 witness. -/
theorem run_agent_planitem_structure_witness :
    ∃ segs : List (List AgentResponse),
      segs.length = (AgentResult.mk ["a"]
        [⟨.PlanItem, "a", none⟩, ⟨.Thought, "x", none⟩, ⟨.Answer, "done", none⟩]
        (some "done")).plan_items.length ∧
      (AgentResult.mk ["a"]
        [⟨.PlanItem, "a", none⟩, ⟨.Thought, "x", none⟩, ⟨.Answer, "done", none⟩]
        (some "done")).log
        = ((AgentResult.mk ["a"]
            [⟨.PlanItem, "a", none⟩, ⟨.Thought, "x", none⟩, ⟨.Answer, "done", none⟩]
            (some "done")).plan_items.zip segs).flatMap
          (fun p => AgentResponse.mk ResponseType.PlanItem p.1 none :: p.2) :=
  run_agent_planitem_structure 1 ["1. a", "x", "Answer: done"] "p"
    ⟨["a"], [⟨.PlanItem, "a", none⟩, ⟨.Thought, "x", none⟩, ⟨.Answer, "done", none⟩],
      some "done"⟩ (by decide)
